import Mathlib

/-!
Verification of the import-classification analyzer (`src/system/import_analyzer.py`).

The development shallowly embeds the analyzer's pipeline:

* `pySplitAux` / `pySplit` / `get_top_level_package` embed Python's
  `module_name.split('.')[0]` resolver (`get_top_level_package`, lines 33-37).
* `Stmt` / `StmtSeq` model the parsed syntax tree as far as the visitor observes
  it: direct-import nodes (`ast.Import`, carrying the list of dotted alias
  names), from-import nodes (`ast.ImportFrom`, carrying the optional source
  module and the — ignored — imported names), arbitrary compound statements
  whose children the generic visit recurses into, and leaf statements with no
  imports.
* `ImportAnalyzer`, `visitStmt`, `visitSeq` embed the `ast.NodeVisitor`
  subclass (lines 16-31).  Python accumulates into `set()` objects; a Python
  set has no observable order (iteration order is hash-dependent, and the
  program only ever observes the sets through membership and `sorted(...)`), so
  a set is represented as a duplicate-free list built by `setAdd`
  (add-if-absent), and every ordered view the program produces goes through
  `sortStrings`.
* `stdlib_modules`, `FindSpecResult`, `PyEnv`, `is_standard_library` embed the
  two-tier classifier (lines 39-72).  The dynamic tier
  (`importlib.util.find_spec`) is an environment query, modelled as the
  `find_spec` field of `PyEnv`: it can raise one of the caught error classes
  (`ImportError`, `ModuleNotFoundError`, `ValueError`), return no spec, or
  return a spec with an optional origin path; `stdlib_path`
  (`os.path.dirname(os.__file__)`) is likewise environment data.
* `allModules`, `topLevelPackages`, `classifyLoop`, `analyze_tree`,
  `analyze_python_code` embed `analyze_python_code` (lines 74-128); `ast.parse`
  is the delegated external parser, modelled as the `parse` field of `PyEnv`.
* `Report`, `setAnalyzedFile`, `main_py` embed the reporting shapes and `main`
  (lines 130-170).  The Python `main` ends every path with a plain `return` and
  the program never calls `sys.exit`, so the process exit status is 0 on every
  path; the second component of `main_py`'s result records that exit status.
* `rawImportsOf` / `rawImportsOfSeq`, `docDirect...` / `docFrom...` and
  `beforeFirstDot` are spec-side definitions (document-order import sequence,
  prefix before the first dot) used to compare the code with the specified
  contracts.

Sorting: Python's `sorted` on strings is lexicographic by Unicode code point.
`charsLe` is that order on `List Char`, `strLe` the induced order on `String`,
and `sortStrings` (an insertion sort by `charsLe`) is used wherever the Python
code calls `sorted`; that it sorts by `strLe` is proved below.
-/

/-- Lexicographic comparison of character lists by Unicode code point; this is
exactly how Python compares strings. -/
def charsLe : List Char → List Char → Bool
  | [], _ => true
  | _ :: _, [] => false
  | a :: as, b :: bs => if a < b then true else if b < a then false else charsLe as bs

/-- The order `sorted` uses on Python strings, as a relation on `String`. -/
def strLe (a b : String) : Prop := charsLe a.data b.data = true

/-- Insert a string into a list sorted by `charsLe`, keeping it sorted. -/
def orderedInsertStr (a : String) : List String → List String
  | [] => [a]
  | b :: l => if charsLe a.data b.data then a :: b :: l else b :: orderedInsertStr a l

/-- Python's `sorted` on a collection of strings: an insertion sort by the
lexicographic code-point order. -/
def sortStrings : List String → List String
  | [] => []
  | a :: l => orderedInsertStr a (sortStrings l)

/-- Auxiliary recursion of Python's `str.split` for a single-character
separator: the accumulator holds the characters of the current fragment in
reverse. -/
def pySplitAux (sep : Char) : List Char → List Char → List (List Char)
  | [], acc => [acc.reverse]
  | c :: cs, acc =>
      if c = sep then acc.reverse :: pySplitAux sep cs []
      else pySplitAux sep cs (c :: acc)

/-- Python's `s.split(sep)` for a single-character separator. -/
def pySplit (sep : Char) (s : String) : List String :=
  (pySplitAux sep s.data []).map List.asString

/-- Source lines 33-37: `get_top_level_package(module_name)` returns
`module_name.split('.')[0]` when `'.' in module_name`, else `module_name`.
`pySplit` never returns an empty list, so the `headD` default is never used. -/
def get_top_level_package (module_name : String) : String :=
  if '.' ∈ module_name.data then (pySplit '.' module_name).headD module_name
  else module_name

/-- Spec-side notion for C3: the prefix of a string before its first `'.'`
character (the whole string when it has no `'.'`). -/
def beforeFirstDot (m : String) : String :=
  (m.data.takeWhile (fun c => c != '.')).asString

mutual
/-- The statement forms the visitor can observe, as exposed by the parsed
syntax tree: a direct import with its list of dotted target names
(`import a, b.c`), a from-import with its optional source module
(`from m import x`, where a relative import `from . import x` has no module),
a compound statement whose children the generic visit recurses into, and any
other leaf statement. -/
inductive Stmt where
  | importStmt (names : List String) : Stmt
  | importFrom (module : Option String) (names : List String) : Stmt
  | block (body : StmtSeq) : Stmt
  | other : Stmt

inductive StmtSeq where
  | nil : StmtSeq
  | cons (s : Stmt) (rest : StmtSeq) : StmtSeq
end

/-- Python `set.add`: a Python string set, observed only through membership and
`sorted`, is represented as a duplicate-free list; `setAdd` inserts an element
if absent. -/
def setAdd (x : String) (s : List String) : List String :=
  if x ∈ s then s else s ++ [x]

/-- Source lines 16-19: the visitor state, `self.imports` and
`self.from_imports`, both Python sets of strings. -/
structure ImportAnalyzer where
  imports : List String
  from_imports : List String
deriving DecidableEq

mutual
/-- Source lines 21-31: `visit_Import` adds every `alias.name` to
`self.imports`; `visit_ImportFrom` adds `node.module` to `self.from_imports`
when it is not `None`; `generic_visit` recurses into the children of every
other node. -/
def visitStmt (st : ImportAnalyzer) : Stmt → ImportAnalyzer
  | .importStmt names =>
      { st with imports := names.foldl (fun s n => setAdd n s) st.imports }
  | .importFrom (some m) _ =>
      { st with from_imports := setAdd m st.from_imports }
  | .importFrom Option.none _ => st
  | .block body => visitSeq st body
  | .other => st

def visitSeq (st : ImportAnalyzer) : StmtSeq → ImportAnalyzer
  | .nil => st
  | .cons s rest => visitSeq (visitStmt st s) rest
end

mutual
/-- Spec-side definitions: the direct-import target names of a tree, in
document order. -/
def docDirect : Stmt → List String
  | .importStmt names => names
  | .importFrom _ _ => []
  | .block body => docDirectSeq body
  | .other => []

def docDirectSeq : StmtSeq → List String
  | .nil => []
  | .cons s rest => docDirect s ++ docDirectSeq rest
end

mutual
/-- Spec-side definitions: the from-import source modules of a tree, in
document order (relative from-imports with no module contribute nothing). -/
def docFrom : Stmt → List String
  | .importStmt _ => []
  | .importFrom (some m) _ => [m]
  | .importFrom Option.none _ => []
  | .block body => docFromSeq body
  | .other => []

def docFromSeq : StmtSeq → List String
  | .nil => []
  | .cons s rest => docFrom s ++ docFromSeq rest
end

/-- Every raw dotted module path a tree contributes (direct targets and
from-import source modules). -/
def docAllSeq (l : StmtSeq) : List String := docDirectSeq l ++ docFromSeq l

mutual
/-- Spec-side predicate for C6: the input contains at least one import
statement of either grammatical form — including a relative from-import with
no source module. -/
def stmtHasImport : Stmt → Bool
  | .importStmt _ => true
  | .importFrom _ _ => true
  | .block body => seqHasImport body
  | .other => false

def seqHasImport : StmtSeq → Bool
  | .nil => false
  | .cons s rest => stmtHasImport s || seqHasImport rest
end

/-- Grammatical form of one import occurrence (spec data model `RawImport`). -/
inductive ImportForm where
  | direct : ImportForm
  | fromModule : ImportForm
deriving DecidableEq

/-- Spec data model: one syntactic import occurrence. -/
structure RawImport where
  module_path : String
  form : ImportForm
deriving DecidableEq

mutual
/-- Modelled from the spec (section 4.2 contract): the ordered sequence of
`RawImport` values in document order.  The code's extractor keeps sets instead;
this definition exists to compare the two (claim C7). -/
def rawImportsOf : Stmt → List RawImport
  | .importStmt names => names.map (fun n => ⟨n, ImportForm.direct⟩)
  | .importFrom (some m) _ => [⟨m, ImportForm.fromModule⟩]
  | .importFrom Option.none _ => []
  | .block body => rawImportsOfSeq body
  | .other => []

def rawImportsOfSeq : StmtSeq → List RawImport
  | .nil => []
  | .cons s rest => rawImportsOf s ++ rawImportsOfSeq rest
end

/-- Source lines 41-53: the static allow-list set literal, transcribed entry
for entry (the source writes `'threading'` twice; a set literal collapses the
duplicate, and only membership is ever observed). -/
def stdlib_modules : List String :=
  ["os", "sys", "json", "ast", "collections", "itertools", "functools",
   "datetime", "time", "re", "math", "random", "hashlib", "base64",
   "urllib", "http", "socket", "threading", "subprocess", "pathlib",
   "io", "csv", "xml", "html", "email", "logging", "argparse",
   "configparser", "pickle", "sqlite3", "uuid", "copy", "weakref",
   "gc", "traceback", "warnings", "typing", "enum", "dataclasses",
   "contextlib", "operator", "heapq", "bisect", "array", "struct",
   "codecs", "locale", "gettext", "calendar", "sched", "queue",
   "threading", "multiprocessing", "concurrent", "asyncio", "ssl",
   "ftplib", "poplib", "imaplib", "smtplib", "telnetlib", "socketserver",
   "xmlrpc", "gzip", "bz2", "lzma", "zipfile", "tarfile", "tempfile",
   "shutil", "glob", "fnmatch", "stat", "filecmp", "mmap"]

/-- Outcome of `importlib.util.find_spec(top_level)` in the running
environment: the call can raise one of the caught classes (`ImportError`,
`ModuleNotFoundError`, `ValueError`), return `None`, or return a spec whose
`origin` attribute is an optional path string. -/
inductive FindSpecResult where
  | raises : FindSpecResult
  | notFound : FindSpecResult
  | spec (origin : Option String) : FindSpecResult

/-- Outcome of `ast.parse(code_text)`: a tree, or a `SyntaxError` carrying
`getattr(e, 'lineno', None)`. -/
inductive ParseResult where
  | ok (tree : StmtSeq) : ParseResult
  | syntaxError (lineno : Option Nat) : ParseResult

/-- The ambient Python runtime and operating system, as far as the analyzer
queries them: `importlib.util.find_spec`, `os.path.dirname(os.__file__)`,
`ast.parse`, `os.path.exists`, and reading a file (an error carries the raised
exception's type name). -/
structure PyEnv where
  find_spec : String → FindSpecResult
  stdlib_path : String
  parse : String → ParseResult
  path_exists : String → Bool
  read_file : String → Except String String

/-- Source lines 39-72: `is_standard_library`.  Static tier first: membership
in `stdlib_modules`.  Dynamic tier: `find_spec(top_level)`; when it yields a
spec with a truthy `origin` (Python truthiness: not `None` and not the empty
string), return `origin.startswith(stdlib_path)`; on a raised caught error, a
missing spec, or a falsy origin, fall through to `return False`. -/
def is_standard_library (env : PyEnv) (module_name : String) : Bool :=
  let top_level := get_top_level_package module_name
  if top_level ∈ stdlib_modules then true
  else
    match env.find_spec top_level with
    | .spec (some origin) =>
        if origin ≠ "" then String.startsWith origin env.stdlib_path else false
    | .spec Option.none => false
    | .notFound => false
    | .raises => false

/-- Spec-side predicate for C4: the dynamic environment lookup failed —
the package was not found, the lookup raised a caught environment error, or
the found spec carries no origin path. -/
def dynamicLookupFailed : FindSpecResult → Bool
  | .raises => true
  | .notFound => true
  | .spec Option.none => true
  | .spec (some _) => false

/-- Source lines 110-114: the `analysis_summary` dictionary. -/
structure AnalysisSummary where
  total_imports : Nat
  external_count : Nat
  standard_count : Nat
deriving DecidableEq

/-- Source lines 105-115: the success dictionary (minus the constant
`'success': True` flag, which the `Report` constructor carries). -/
structure AnalysisSuccess where
  external_packages : List String
  standard_modules : List String
  all_imports : List String
  analysis_summary : AnalysisSummary
deriving DecidableEq

/-- Source lines 84-86: the visitor is run over the tree starting from empty
sets. -/
def analyzerOf (tree : StmtSeq) : ImportAnalyzer := visitSeq ⟨[], []⟩ tree

/-- Source lines 88-92: `all_modules = set()`, then
`all_modules.update(analyzer.imports)` and
`all_modules.update(analyzer.from_imports)` — two element-wise unions into an
initially empty set. -/
def allModules (tree : StmtSeq) : List String :=
  (analyzerOf tree).from_imports.foldl (fun s n => setAdd n s)
    ((analyzerOf tree).imports.foldl (fun s n => setAdd n s) [])

/-- Source lines 94-98: `top_level_packages = set()`, then one
`add(get_top_level_package(module))` per module in `all_modules`. -/
def topLevelPackages (tree : StmtSeq) : List String :=
  (allModules tree).foldl (fun s m => setAdd (get_top_level_package m) s) []

/-- Source lines 100-107: the loop
`for package in sorted(top_level_packages)` appending each package to
`standard_modules` when `is_standard_library(package)` and to
`external_packages` otherwise; the accumulator pair is
(external_packages, standard_modules). -/
def classifyLoop (env : PyEnv) (pkgs : List String) : List String × List String :=
  pkgs.foldl (fun acc package =>
    if is_standard_library env package then (acc.1, acc.2 ++ [package])
    else (acc.1 ++ [package], acc.2)) ([], [])

/-- Source lines 105-115: the success dictionary built from one parsed tree. -/
def analyze_tree (env : PyEnv) (tree : StmtSeq) : AnalysisSuccess :=
  { external_packages := (classifyLoop env (sortStrings (topLevelPackages tree))).1
    standard_modules := (classifyLoop env (sortStrings (topLevelPackages tree))).2
    all_imports := sortStrings (allModules tree)
    analysis_summary :=
      { total_imports := (allModules tree).length
        external_count := (classifyLoop env (sortStrings (topLevelPackages tree))).1.length
        standard_count := (classifyLoop env (sortStrings (topLevelPackages tree))).2.length } }

/-- The single JSON object every code path prints: a success report (lines
105-115) or a failure report carrying `error_type`, the optional
`line_number` (syntax failures only), and the optional `analyzed_file`.  The
human-readable `error` message string is not modelled. -/
inductive Report where
  | success (result : AnalysisSuccess) (analyzed_file : Option String) : Report
  | failure (error_type : String) (line_number : Option Nat)
      (analyzed_file : Option String) : Report
deriving DecidableEq

/-- Source lines 74-128: `analyze_python_code(code_text)` — parse, then build
the success dictionary, or convert a `SyntaxError` into a failure dictionary.
(The generic `except Exception` arm, lines 123-128, is unreachable in the
model: everything after a successful parse is total.) -/
def analyze_python_code (env : PyEnv) (code_text : String) : Report :=
  match env.parse code_text with
  | .ok tree => .success (analyze_tree env tree) Option.none
  | .syntaxError ln => .failure "SyntaxError" ln Option.none

/-- Source line 160: `result['analyzed_file'] = file_path`. -/
def setAnalyzedFile (r : Report) (fp : String) : Report :=
  match r with
  | .success res _ => .success res (some fp)
  | .failure et ln _ => .failure et ln (some fp)

/-- Source lines 130-170: `main()`.  The first component is the list of JSON
objects printed; the second is the process exit status.  Every branch of the
Python function ends in a plain `return` (never `sys.exit`), so the
interpreter exits with status 0 on every path. -/
def main_py (env : PyEnv) (argv : List String) : List Report × Nat :=
  if argv.length < 2 then
    ([Report.failure "ArgumentError" Option.none Option.none], 0)
  else
    let file_path := argv.getD 1 ""
    if env.path_exists file_path = false then
      ([Report.failure "FileNotFoundError" Option.none Option.none], 0)
    else
      match env.read_file file_path with
      | .ok code_text =>
          ([setAnalyzedFile (analyze_python_code env code_text) file_path], 0)
      | .error ename => ([Report.failure ename Option.none (some file_path)], 0)

/-- Parsed form of `"import os\nimport numpy"`. -/
def demoTree : StmtSeq :=
  .cons (.importStmt ["os"]) (.cons (.importStmt ["numpy"]) .nil)

/-- Parsed form of `"import numpy\nimport os\nimport os"` — the statements of
`demoTree` reordered, with one repeated. -/
def demoTreeReordered : StmtSeq :=
  .cons (.importStmt ["numpy"]) (.cons (.importStmt ["os"]) (.cons (.importStmt ["os"]) .nil))

/-- Parsed form of `"import os.path\nimport os"` — two distinct raw module
paths sharing the top-level package `os`. -/
def dottedTree : StmtSeq :=
  .cons (.importStmt ["os.path"]) (.cons (.importStmt ["os"]) .nil)

/-- Parsed form of `"from . import x"` — one import statement whose
from-import node has no source module. -/
def relativeTree : StmtSeq :=
  .cons (.importFrom Option.none ["x"]) .nil

/-- Parsed form of `"import b\nimport a"` — document order is the reverse of
lexicographic order. -/
def orderTree : StmtSeq :=
  .cons (.importStmt ["b"]) (.cons (.importStmt ["a"]) .nil)

/-- A concrete sandboxed environment: every dynamic lookup raises
`ModuleNotFoundError`, and the parser recognizes the five demo inputs. -/
def envDemo : PyEnv where
  find_spec := fun _ => .raises
  stdlib_path := "/usr/lib/python3.11"
  parse := fun text =>
    if text = "import os\nimport numpy" then .ok demoTree
    else if text = "import numpy\nimport os\nimport os" then .ok demoTreeReordered
    else if text = "import os.path\nimport os" then .ok dottedTree
    else if text = "from . import x" then .ok relativeTree
    else if text = "import b\nimport a" then .ok orderTree
    else .syntaxError (some 1)
  path_exists := fun p => p = "demo.py"
  read_file := fun p =>
    if p = "demo.py" then .ok "import os\nimport numpy" else .error "OSError"

/-- A concrete environment in which `find_spec "os"` resolves to a local
project file shadowing the standard module (origin outside `stdlib_path`). -/
def envCollision : PyEnv where
  find_spec := fun p => if p = "os" then .spec (some "/home/project/os.py") else .notFound
  stdlib_path := "/usr/lib/python3.11"
  parse := fun _ => .syntaxError Option.none
  path_exists := fun _ => false
  read_file := fun _ => .error "OSError"

/-- Unfolding lemma for `charsLe` on two nonempty lists. -/
theorem charsLe_cons_iff (a b : Char) (as bs : List Char) :
    charsLe (a :: as) (b :: bs) = true ↔
      a < b ∨ (a = b ∧ charsLe as bs = true) := by
  by_cases h1 : a < b
  · simp [charsLe, h1]
  · by_cases h2 : b < a
    · have : a ≠ b := fun h => absurd (h ▸ h2) (lt_irrefl _)
      simp [charsLe, h1, h2, this]
    · have heq : a = b := le_antisymm (not_lt.mp h2) (not_lt.mp h1)
      simp [charsLe, h1, h2, heq]

theorem charsLe_refl : ∀ as : List Char, charsLe as as = true
  | [] => rfl
  | a :: as => by
      rw [charsLe_cons_iff]
      exact Or.inr ⟨rfl, charsLe_refl as⟩

theorem charsLe_total : ∀ as bs : List Char, charsLe as bs = true ∨ charsLe bs as = true
  | [], _ => Or.inl rfl
  | _ :: _, [] => Or.inr rfl
  | a :: as, b :: bs => by
    rw [charsLe_cons_iff, charsLe_cons_iff]
    rcases lt_trichotomy a b with h | h | h
    · exact Or.inl (Or.inl h)
    · rcases charsLe_total as bs with hr | hr
      · exact Or.inl (Or.inr ⟨h, hr⟩)
      · exact Or.inr (Or.inr ⟨h.symm, hr⟩)
    · exact Or.inr (Or.inl h)

theorem charsLe_trans : ∀ as bs cs : List Char,
    charsLe as bs = true → charsLe bs cs = true → charsLe as cs = true
  | [], _, _, _, _ => rfl
  | _ :: _, [], _, h, _ => by simp [charsLe] at h
  | _ :: _, _ :: _, [], _, h => by simp [charsLe] at h
  | a :: as, b :: bs, c :: cs, h1, h2 => by
    rw [charsLe_cons_iff] at h1 h2 ⊢
    rcases h1 with h1 | ⟨rfl, h1⟩
    · rcases h2 with h2 | ⟨rfl, _⟩
      · exact Or.inl (lt_trans h1 h2)
      · exact Or.inl h1
    · rcases h2 with h2 | ⟨rfl, h2⟩
      · exact Or.inl h2
      · exact Or.inr ⟨rfl, charsLe_trans as bs cs h1 h2⟩

theorem charsLe_antisymm : ∀ as bs : List Char,
    charsLe as bs = true → charsLe bs as = true → as = bs
  | [], [], _, _ => rfl
  | [], _ :: _, _, h => by simp [charsLe] at h
  | _ :: _, [], h, _ => by simp [charsLe] at h
  | a :: as, b :: bs, h1, h2 => by
    rw [charsLe_cons_iff] at h1 h2
    rcases h1 with h1 | ⟨rfl, h1⟩
    · rcases h2 with h2 | ⟨rfl, _⟩
      · exact absurd (lt_trans h1 h2) (lt_irrefl _)
      · exact absurd h1 (lt_irrefl _)
    · rcases h2 with h2 | ⟨_, h2⟩
      · exact absurd h2 (lt_irrefl _)
      · rw [charsLe_antisymm as bs h1 h2]

theorem strLe_refl (a : String) : strLe a a := charsLe_refl a.data

theorem strLe_total (a b : String) : strLe a b ∨ strLe b a := charsLe_total a.data b.data

theorem strLe_trans (a b c : String) : strLe a b → strLe b c → strLe a c :=
  charsLe_trans a.data b.data c.data

theorem strLe_antisymm (a b : String) (h1 : strLe a b) (h2 : strLe b a) : a = b := by
  cases a with
  | mk da =>
    cases b with
    | mk db => exact congrArg String.mk (charsLe_antisymm da db h1 h2)

theorem orderedInsertStr_perm (a : String) :
    ∀ l : List String, List.Perm (orderedInsertStr a l) (a :: l)
  | [] => List.Perm.refl _
  | b :: t => by
      unfold orderedInsertStr
      split
      · exact List.Perm.refl _
      · exact ((orderedInsertStr_perm a t).cons b).trans (List.Perm.swap a b t)

theorem sortStrings_perm : ∀ l : List String, List.Perm (sortStrings l) l
  | [] => List.Perm.refl _
  | a :: t =>
      (orderedInsertStr_perm a (sortStrings t)).trans ((sortStrings_perm t).cons a)

theorem mem_sortStrings (y : String) (l : List String) : y ∈ sortStrings l ↔ y ∈ l :=
  (sortStrings_perm l).mem_iff

theorem sortStrings_nodup (l : List String) (h : l.Nodup) : (sortStrings l).Nodup :=
  ((sortStrings_perm l).nodup_iff).mpr h

theorem sortStrings_length (l : List String) : (sortStrings l).length = l.length :=
  (sortStrings_perm l).length_eq

theorem mem_orderedInsertStr (y a : String) (l : List String) :
    y ∈ orderedInsertStr a l ↔ y = a ∨ y ∈ l := by
  rw [(orderedInsertStr_perm a l).mem_iff, List.mem_cons]

theorem orderedInsertStr_sorted (a : String) :
    ∀ l : List String, List.Sorted strLe l → List.Sorted strLe (orderedInsertStr a l)
  | [], _ => by simp [orderedInsertStr]
  | b :: t, h => by
      rw [List.sorted_cons] at h
      unfold orderedInsertStr
      split
      · rename_i hc
        rw [List.sorted_cons]
        refine ⟨?_, List.sorted_cons.mpr h⟩
        intro x hx
        rcases List.mem_cons.mp hx with rfl | hx
        · exact hc
        · exact strLe_trans a b x hc (h.1 x hx)
      · rename_i hc
        have hba : strLe b a := by
          rcases strLe_total a b with hab | hba
          · exact absurd hab hc
          · exact hba
        rw [List.sorted_cons]
        refine ⟨?_, orderedInsertStr_sorted a t h.2⟩
        intro x hx
        rcases (mem_orderedInsertStr x a t).mp hx with rfl | hx
        · exact hba
        · exact h.1 x hx

theorem sortStrings_sorted : ∀ l : List String, List.Sorted strLe (sortStrings l)
  | [] => List.sorted_nil
  | a :: t => orderedInsertStr_sorted a (sortStrings t) (sortStrings_sorted t)

/-- Two lists sorted by `strLe` that are permutations of one another are
equal. -/
theorem sorted_strLe_eq_of_perm : ∀ l1 l2 : List String, List.Perm l1 l2 →
    List.Sorted strLe l1 → List.Sorted strLe l2 → l1 = l2
  | [], l2, hp, _, _ => (List.perm_nil.mp hp.symm).symm ▸ rfl
  | a :: t1, [], hp, _, _ => absurd (List.perm_nil.mp hp) (by simp)
  | a :: t1, b :: t2, hp, hs1, hs2 => by
      rw [List.sorted_cons] at hs1 hs2
      have hab : strLe a b := by
        have hbmem : b ∈ a :: t1 := hp.symm.subset (List.mem_cons_self b t2)
        rcases List.mem_cons.mp hbmem with h | h
        · exact h ▸ strLe_refl a
        · exact hs1.1 b h
      have hba : strLe b a := by
        have hamem : a ∈ b :: t2 := hp.subset (List.mem_cons_self a t1)
        rcases List.mem_cons.mp hamem with h | h
        · exact h ▸ strLe_refl b
        · exact hs2.1 a h
      have hab' : a = b := strLe_antisymm a b hab hba
      subst hab'
      rw [sorted_strLe_eq_of_perm t1 t2 hp.cons_inv hs1.2 hs2.2]

/-- Two duplicate-free lists with the same members sort to the same list. -/
theorem sortStrings_eq_of_mem_iff (l1 l2 : List String) (h1 : l1.Nodup) (h2 : l2.Nodup)
    (h : ∀ y, y ∈ l1 ↔ y ∈ l2) : sortStrings l1 = sortStrings l2 := by
  have hp : List.Perm l1 l2 := (List.perm_ext_iff_of_nodup h1 h2).mpr h
  exact sorted_strLe_eq_of_perm _ _
    ((sortStrings_perm l1).trans (hp.trans (sortStrings_perm l2).symm))
    (sortStrings_sorted l1) (sortStrings_sorted l2)

theorem mem_setAdd (y x : String) (s : List String) :
    y ∈ setAdd x s ↔ y = x ∨ y ∈ s := by
  unfold setAdd
  split
  · constructor
    · exact Or.inr
    · rintro (rfl | h) <;> assumption
  · simp [List.mem_append, or_comm]

theorem setAdd_nodup (x : String) (s : List String) (h : s.Nodup) : (setAdd x s).Nodup := by
  unfold setAdd
  split
  · exact h
  · rename_i hx
    simp [List.nodup_append, h, List.disjoint_singleton, hx]

/-- Membership after folding `setAdd (f x)` over a list, the shape of both
`set.update(...)` (with `f` the identity) and the `top_level_packages` loop. -/
theorem mem_foldl_setAdd_map (f : String → String) (y : String) (l : List String) :
    ∀ s : List String, y ∈ l.foldl (fun s m => setAdd (f m) s) s ↔ y ∈ s ∨ y ∈ l.map f := by
  induction l with
  | nil => simp
  | cons n ns ih =>
      intro s
      rw [List.foldl_cons, ih, mem_setAdd]
      simp only [List.map_cons, List.mem_cons]
      constructor
      · rintro ((h | h) | h)
        · exact Or.inr (Or.inl h)
        · exact Or.inl h
        · exact Or.inr (Or.inr h)
      · rintro (h | h | h)
        · exact Or.inl (Or.inr h)
        · exact Or.inl (Or.inl h)
        · exact Or.inr h

theorem foldl_setAdd_map_nodup (f : String → String) (l : List String) :
    ∀ s : List String, s.Nodup → (l.foldl (fun s m => setAdd (f m) s) s).Nodup := by
  induction l with
  | nil => exact fun s hs => hs
  | cons n ns ih =>
      intro s hs
      exact ih _ (setAdd_nodup (f n) s hs)

theorem mem_foldl_setAdd (y : String) (l : List String) (s : List String) :
    y ∈ l.foldl (fun s n => setAdd n s) s ↔ y ∈ s ∨ y ∈ l := by
  have h := mem_foldl_setAdd_map (fun n => n) y l s
  simpa using h

theorem foldl_setAdd_nodup (l : List String) (s : List String) (hs : s.Nodup) :
    (l.foldl (fun s n => setAdd n s) s).Nodup :=
  foldl_setAdd_map_nodup (fun n => n) l s hs

mutual
theorem visitStmt_mem (s : Stmt) (st : ImportAnalyzer) (y : String) :
    (y ∈ (visitStmt st s).imports ↔ y ∈ st.imports ∨ y ∈ docDirect s) ∧
    (y ∈ (visitStmt st s).from_imports ↔ y ∈ st.from_imports ∨ y ∈ docFrom s) :=
  match s with
  | .importStmt names => by
      simp [visitStmt, docDirect, docFrom, mem_foldl_setAdd]
  | .importFrom (some m) names => by
      simp only [visitStmt, docDirect, docFrom, mem_setAdd, List.mem_singleton,
        List.not_mem_nil, or_false]
      exact ⟨trivial, or_comm⟩
  | .importFrom Option.none names => by
      simp [visitStmt, docDirect, docFrom]
  | .block body => by
      have h := visitSeq_mem body st y
      simpa [visitStmt, docDirect, docFrom] using h
  | .other => by
      simp [visitStmt, docDirect, docFrom]

theorem visitSeq_mem (l : StmtSeq) (st : ImportAnalyzer) (y : String) :
    (y ∈ (visitSeq st l).imports ↔ y ∈ st.imports ∨ y ∈ docDirectSeq l) ∧
    (y ∈ (visitSeq st l).from_imports ↔ y ∈ st.from_imports ∨ y ∈ docFromSeq l) :=
  match l with
  | .nil => by
      simp [visitSeq, docDirectSeq, docFromSeq]
  | .cons s rest => by
      have h1 := visitStmt_mem s st y
      have h2 := visitSeq_mem rest (visitStmt st s) y
      simp only [visitSeq, docDirectSeq, docFromSeq, List.mem_append]
      refine ⟨?_, ?_⟩
      · rw [h2.1, h1.1]; exact or_assoc
      · rw [h2.2, h1.2]; exact or_assoc
end

mutual
theorem visitStmt_nodup (s : Stmt) (st : ImportAnalyzer)
    (h1 : st.imports.Nodup) (h2 : st.from_imports.Nodup) :
    (visitStmt st s).imports.Nodup ∧ (visitStmt st s).from_imports.Nodup :=
  match s with
  | .importStmt names => ⟨foldl_setAdd_nodup names _ h1, h2⟩
  | .importFrom (some m) _ => ⟨h1, setAdd_nodup m _ h2⟩
  | .importFrom Option.none _ => ⟨h1, h2⟩
  | .block body => visitSeq_nodup body st h1 h2
  | .other => ⟨h1, h2⟩

theorem visitSeq_nodup (l : StmtSeq) (st : ImportAnalyzer)
    (h1 : st.imports.Nodup) (h2 : st.from_imports.Nodup) :
    (visitSeq st l).imports.Nodup ∧ (visitSeq st l).from_imports.Nodup :=
  match l with
  | .nil => ⟨h1, h2⟩
  | .cons s rest =>
      have h := visitStmt_nodup s st h1 h2
      visitSeq_nodup rest (visitStmt st s) h.1 h.2
end

theorem analyzerOf_imports_mem (tree : StmtSeq) (y : String) :
    y ∈ (analyzerOf tree).imports ↔ y ∈ docDirectSeq tree := by
  have h := (visitSeq_mem tree ⟨[], []⟩ y).1
  simpa [analyzerOf] using h

theorem analyzerOf_from_imports_mem (tree : StmtSeq) (y : String) :
    y ∈ (analyzerOf tree).from_imports ↔ y ∈ docFromSeq tree := by
  have h := (visitSeq_mem tree ⟨[], []⟩ y).2
  simpa [analyzerOf] using h

theorem analyzerOf_nodup (tree : StmtSeq) :
    (analyzerOf tree).imports.Nodup ∧ (analyzerOf tree).from_imports.Nodup :=
  visitSeq_nodup tree ⟨[], []⟩ List.nodup_nil List.nodup_nil

theorem mem_allModules (tree : StmtSeq) (y : String) :
    y ∈ allModules tree ↔ y ∈ docAllSeq tree := by
  unfold allModules docAllSeq
  rw [mem_foldl_setAdd, mem_foldl_setAdd]
  simp [analyzerOf_imports_mem, analyzerOf_from_imports_mem, List.mem_append, or_comm]

theorem allModules_nodup (tree : StmtSeq) : (allModules tree).Nodup :=
  foldl_setAdd_nodup _ _ (foldl_setAdd_nodup _ _ List.nodup_nil)

theorem mem_topLevelPackages (tree : StmtSeq) (y : String) :
    y ∈ topLevelPackages tree ↔ y ∈ (allModules tree).map get_top_level_package := by
  unfold topLevelPackages
  rw [mem_foldl_setAdd_map]
  simp

theorem topLevelPackages_nodup (tree : StmtSeq) : (topLevelPackages tree).Nodup :=
  foldl_setAdd_map_nodup _ _ _ List.nodup_nil

/-- The classification loop is the pair of filters of its input: packages the
classifier rejects, in order, and packages it accepts, in order. -/
theorem classifyLoop_eq (env : PyEnv) (pkgs : List String) :
    classifyLoop env pkgs =
      (pkgs.filter (fun p => !(is_standard_library env p)),
       pkgs.filter (fun p => is_standard_library env p)) := by
  unfold classifyLoop
  suffices h : ∀ acc : List String × List String,
      pkgs.foldl (fun acc package =>
        if is_standard_library env package then (acc.1, acc.2 ++ [package])
        else (acc.1 ++ [package], acc.2)) acc =
      (acc.1 ++ pkgs.filter (fun p => !(is_standard_library env p)),
       acc.2 ++ pkgs.filter (fun p => is_standard_library env p)) by
    simpa using h ([], [])
  induction pkgs with
  | nil => simp
  | cons p ps ih =>
      intro acc
      by_cases hp : is_standard_library env p = true
      · simp [hp, ih, List.filter_cons]
      · simp only [Bool.not_eq_true] at hp
        simp [hp, ih, List.filter_cons]

mutual
theorem rawImportsOf_direct_mem (s : Stmt) (y : String) :
    (⟨y, ImportForm.direct⟩ : RawImport) ∈ rawImportsOf s ↔ y ∈ docDirect s :=
  match s with
  | .importStmt names => by
      simp [rawImportsOf, docDirect, List.mem_map]
  | .importFrom (some m) _ => by
      simp [rawImportsOf, docDirect]
  | .importFrom Option.none _ => by
      simp [rawImportsOf, docDirect]
  | .block body => by
      simpa [rawImportsOf, docDirect] using rawImportsOfSeq_direct_mem body y
  | .other => by
      simp [rawImportsOf, docDirect]

theorem rawImportsOfSeq_direct_mem (l : StmtSeq) (y : String) :
    (⟨y, ImportForm.direct⟩ : RawImport) ∈ rawImportsOfSeq l ↔ y ∈ docDirectSeq l :=
  match l with
  | .nil => by simp [rawImportsOfSeq, docDirectSeq]
  | .cons s rest => by
      have h1 := rawImportsOf_direct_mem s y
      have h2 := rawImportsOfSeq_direct_mem rest y
      simp only [rawImportsOfSeq, docDirectSeq, List.mem_append, h1, h2]
end

mutual
theorem rawImportsOf_from_mem (s : Stmt) (y : String) :
    (⟨y, ImportForm.fromModule⟩ : RawImport) ∈ rawImportsOf s ↔ y ∈ docFrom s :=
  match s with
  | .importStmt names => by
      simp [rawImportsOf, docFrom, List.mem_map]
  | .importFrom (some m) _ => by
      simp [rawImportsOf, docFrom]
  | .importFrom Option.none _ => by
      simp [rawImportsOf, docFrom]
  | .block body => by
      simpa [rawImportsOf, docFrom] using rawImportsOfSeq_from_mem body y
  | .other => by
      simp [rawImportsOf, docFrom]

theorem rawImportsOfSeq_from_mem (l : StmtSeq) (y : String) :
    (⟨y, ImportForm.fromModule⟩ : RawImport) ∈ rawImportsOfSeq l ↔ y ∈ docFromSeq l :=
  match l with
  | .nil => by simp [rawImportsOfSeq, docFromSeq]
  | .cons s rest => by
      have h1 := rawImportsOf_from_mem s y
      have h2 := rawImportsOfSeq_from_mem rest y
      simp only [rawImportsOfSeq, docFromSeq, List.mem_append, h1, h2]
end

/-- The head of `pySplitAux` is the pending fragment followed by the input up
to the first separator. -/
theorem pySplitAux_eq_cons (sep : Char) :
    ∀ (cs acc : List Char), ∃ rest,
      pySplitAux sep cs acc = (acc.reverse ++ cs.takeWhile (fun c => c != sep)) :: rest
  | [], acc => ⟨[], by simp [pySplitAux]⟩
  | c :: cs, acc => by
      by_cases h : c = sep
      · subst h
        refine ⟨pySplitAux c cs [], ?_⟩
        simp [pySplitAux, List.takeWhile_cons]
      · obtain ⟨rest, hr⟩ := pySplitAux_eq_cons sep cs (c :: acc)
        refine ⟨rest, ?_⟩
        rw [pySplitAux]
        simp only [h, if_false, hr, List.takeWhile_cons]
        simp [h]

/-- The resolver agrees everywhere with the spec-side "prefix before the first
dot" function (also on the empty string and on dotless strings). -/
theorem get_top_level_package_eq_beforeFirstDot (m : String) :
    get_top_level_package m = beforeFirstDot m := by
  unfold get_top_level_package beforeFirstDot
  by_cases h : '.' ∈ m.data
  · rw [if_pos h]
    unfold pySplit
    obtain ⟨rest, hr⟩ := pySplitAux_eq_cons '.' m.data []
    rw [hr]
    simp
  · rw [if_neg h]
    have hall : m.data.takeWhile (fun c => c != '.') = m.data := by
      rw [List.takeWhile_eq_self_iff]
      intro c hc
      simp only [bne_iff_ne, ne_eq]
      intro hcd
      exact h (hcd ▸ hc)
    rw [hall]
    cases m with
    | mk d => rfl

/-- C3: for every non-empty string `module_path`, the package identity
resolver returns the prefix of `module_path` before its first `'.'` character,
and returns `module_path` itself when it contains no `'.'`. -/
theorem C3_resolver_first_dot_prefix (m : String) (_hm : m ≠ "") :
    get_top_level_package m = beforeFirstDot m ∧
    ('.' ∉ m.data → get_top_level_package m = m) := by
  refine ⟨get_top_level_package_eq_beforeFirstDot m, fun h => ?_⟩
  unfold get_top_level_package
  rw [if_neg h]

/-- Witness for C3 at the concrete input `"os.path"`. -/
theorem C3_resolver_first_dot_prefix_witness :
    ("os.path" : String) ≠ "" ∧
    (get_top_level_package "os.path" = beforeFirstDot "os.path" ∧
      ('.' ∉ ("os.path" : String).data → get_top_level_package "os.path" = "os.path")) :=
  ⟨by decide, C3_resolver_first_dot_prefix "os.path" (by decide)⟩

/-- C9: the package identity resolver is total over all strings — it agrees
with the (everywhere-defined) prefix-before-first-dot function on every input —
and on the empty string it returns the empty string rather than failing. -/
theorem C9_resolver_total_empty_string :
    (∀ m : String, get_top_level_package m = beforeFirstDot m) ∧
    get_top_level_package "" = "" :=
  ⟨get_top_level_package_eq_beforeFirstDot, by decide⟩

/-- C4: whenever the static tier misses and the dynamic environment lookup
fails — the package is not found, the lookup raises one of the caught
environment errors, or no origin path is available — the classifier returns
the External classification (`false`); being a total function into `Bool`, it
terminates with a definite answer and never propagates an error. -/
theorem C4_dynamic_failure_classified_external (env : PyEnv) (m : String)
    (hstatic : get_top_level_package m ∉ stdlib_modules)
    (hfail : dynamicLookupFailed (env.find_spec (get_top_level_package m)) = true) :
    is_standard_library env m = false := by
  unfold is_standard_library
  cases hfs : env.find_spec (get_top_level_package m) with
  | raises => simp [hstatic, hfs]
  | notFound => simp [hstatic, hfs]
  | spec origin =>
      cases origin with
      | none => simp [hstatic, hfs]
      | some o =>
          rw [hfs] at hfail
          simp [dynamicLookupFailed] at hfail

/-- Witness for C4: in the sandboxed demo environment, where every lookup
raises, the package `numpy` (absent from the static tier) is classified
External. -/
theorem C4_dynamic_failure_classified_external_witness :
    (get_top_level_package "numpy" ∉ stdlib_modules ∧
      dynamicLookupFailed (envDemo.find_spec (get_top_level_package "numpy")) = true) ∧
    is_standard_library envDemo "numpy" = false :=
  ⟨⟨by decide, by decide⟩,
    C4_dynamic_failure_classified_external envDemo "numpy" (by decide) (by decide)⟩

/-- C5: for every package identifier whose top-level name is in the static
allow-list, the classifier returns Standard (`true`) in every environment —
in particular in environments whose dynamic lookup would resolve the name to a
local project file: the static tier is checked first and short-circuits. -/
theorem C5_static_tier_short_circuits (env : PyEnv) (m : String)
    (hmem : get_top_level_package m ∈ stdlib_modules) :
    is_standard_library env m = true := by
  unfold is_standard_library
  simp [hmem]

/-- Witness for C5: `os` is in the static set, and in an environment where
`find_spec "os"` resolves to a local project file `/home/project/os.py`
(outside the standard-library path) the classifier still answers Standard. -/
theorem C5_static_tier_short_circuits_witness :
    (get_top_level_package "os" ∈ stdlib_modules ∧
      envCollision.find_spec "os" = FindSpecResult.spec (some "/home/project/os.py")) ∧
    is_standard_library envCollision "os" = true :=
  ⟨⟨by decide, rfl⟩, C5_static_tier_short_circuits envCollision "os" (by decide)⟩

/-- C1: for every syntactically valid input text (any text the environment's
parser accepts, i.e. any text whose analysis yields a success report), the
report's `external_packages` and `standard_modules` lists partition the set of
distinct top-level package identifiers derived from `all_imports`: their union
is that set and their intersection is empty, so every top-level package lies
in exactly one of the two lists. -/
theorem C1_partition_invariant (env : PyEnv) (text : String) (r : AnalysisSuccess)
    (fp : Option String)
    (h : analyze_python_code env text = Report.success r fp) :
    ∀ p : String,
      ((p ∈ r.external_packages ∨ p ∈ r.standard_modules) ↔
        p ∈ (r.all_imports.map get_top_level_package).dedup) ∧
      ¬(p ∈ r.external_packages ∧ p ∈ r.standard_modules) := by
  unfold analyze_python_code at h
  cases hp : env.parse text with
  | syntaxError ln => rw [hp] at h; exact absurd h (by simp)
  | ok tree =>
      rw [hp] at h
      injection h with h1 h2
      subst h1
      intro p
      simp only [analyze_tree, classifyLoop_eq, List.mem_dedup]
      constructor
      · rw [List.mem_filter, List.mem_filter]
        constructor
        · rintro (⟨hmem, _⟩ | ⟨hmem, _⟩) <;>
          · rw [List.mem_map]
            rw [mem_sortStrings, mem_topLevelPackages, List.mem_map] at hmem
            obtain ⟨a, ha, rfl⟩ := hmem
            exact ⟨a, (mem_sortStrings a _).mpr ha, rfl⟩
        · intro hmem
          rw [List.mem_map] at hmem
          obtain ⟨a, ha, rfl⟩ := hmem
          rw [mem_sortStrings] at ha
          have hm2 : get_top_level_package a ∈ sortStrings (topLevelPackages tree) := by
            rw [mem_sortStrings, mem_topLevelPackages, List.mem_map]
            exact ⟨a, ha, rfl⟩
          by_cases hstd : is_standard_library env (get_top_level_package a) = true
          · exact Or.inr ⟨hm2, hstd⟩
          · refine Or.inl ⟨hm2, ?_⟩
            simp [hstd]
      · rw [List.mem_filter, List.mem_filter]
        rintro ⟨⟨_, hnot⟩, ⟨_, hyes⟩⟩
        simp [hyes] at hnot

/-- Witness for C1 at the concrete valid input `"import os\nimport numpy"` in
the sandboxed demo environment. -/
theorem C1_partition_invariant_witness :
    analyze_python_code envDemo "import os\nimport numpy" =
      Report.success (analyze_tree envDemo demoTree) Option.none ∧
    ∀ p : String,
      ((p ∈ (analyze_tree envDemo demoTree).external_packages ∨
          p ∈ (analyze_tree envDemo demoTree).standard_modules) ↔
        p ∈ ((analyze_tree envDemo demoTree).all_imports.map get_top_level_package).dedup) ∧
      ¬(p ∈ (analyze_tree envDemo demoTree).external_packages ∧
          p ∈ (analyze_tree envDemo demoTree).standard_modules) :=
  ⟨rfl, C1_partition_invariant envDemo "import os\nimport numpy"
    (analyze_tree envDemo demoTree) Option.none rfl⟩

/-- C2 as frozen is false on the code: `total_imports` is the number of
distinct raw module paths (`len(all_modules)`, line 111), not the sum of the
partition cardinalities.  On the valid input `"import os.path\nimport os"`
the two distinct raw paths share the top-level package `os`, so
`total_imports = 2` while `external_count + standard_count = 1`. -/
theorem C2_counts_counterexample :
    envDemo.parse "import os.path\nimport os" = ParseResult.ok dottedTree ∧
    analyze_python_code envDemo "import os.path\nimport os" =
      Report.success (analyze_tree envDemo dottedTree) Option.none ∧
    (analyze_tree envDemo dottedTree).analysis_summary.total_imports = 2 ∧
    (analyze_tree envDemo dottedTree).analysis_summary.external_count +
      (analyze_tree envDemo dottedTree).analysis_summary.standard_count = 1 := by
  refine ⟨rfl, rfl, ?_, ?_⟩ <;> decide

/-- C2 amended: `external_count` and `standard_count` are the cardinalities of
the two partitions, and `total_imports` is the cardinality of `all_imports`
(the distinct raw module paths) — which can exceed
`external_count + standard_count` when distinct paths share a top-level
package. -/
theorem C2_amended_counts (env : PyEnv) (text : String) (r : AnalysisSuccess)
    (fp : Option String)
    (h : analyze_python_code env text = Report.success r fp) :
    r.analysis_summary.external_count = r.external_packages.length ∧
    r.analysis_summary.standard_count = r.standard_modules.length ∧
    r.analysis_summary.total_imports = r.all_imports.length := by
  unfold analyze_python_code at h
  cases hp : env.parse text with
  | syntaxError ln => rw [hp] at h; exact absurd h (by simp)
  | ok tree =>
      rw [hp] at h
      injection h with h1 h2
      subst h1
      refine ⟨rfl, rfl, ?_⟩
      simp [analyze_tree, sortStrings_length]

/-- Witness for the amended C2 at the concrete valid input
`"import os\nimport numpy"`. -/
theorem C2_amended_counts_witness :
    analyze_python_code envDemo "import os\nimport numpy" =
      Report.success (analyze_tree envDemo demoTree) Option.none ∧
    ((analyze_tree envDemo demoTree).analysis_summary.external_count =
        (analyze_tree envDemo demoTree).external_packages.length ∧
      (analyze_tree envDemo demoTree).analysis_summary.standard_count =
        (analyze_tree envDemo demoTree).standard_modules.length ∧
      (analyze_tree envDemo demoTree).analysis_summary.total_imports =
        (analyze_tree envDemo demoTree).all_imports.length) :=
  ⟨rfl, C2_amended_counts envDemo "import os\nimport numpy"
    (analyze_tree envDemo demoTree) Option.none rfl⟩

/-- C6 as frozen is false on the code: `all_imports` can be empty although the
input contains an import statement.  The valid input `"from . import x"`
contains one import statement (a relative from-import with no source module,
which the visitor skips), yet its report's `all_imports` is empty. -/
theorem C6_counterexample_relative_import :
    envDemo.parse "from . import x" = ParseResult.ok relativeTree ∧
    seqHasImport relativeTree = true ∧
    (analyze_tree envDemo relativeTree).all_imports = [] := by
  refine ⟨rfl, rfl, ?_⟩
  decide

/-- C6 amended: for every syntactically valid input text, `all_imports` is the
deduplicated, lexicographically sorted list of every raw dotted module path
encountered (direct targets and from-import source modules); it is non-empty
exactly when at least one import statement contributes a module path — a
relative from-import with no source module contributes nothing. -/
theorem C6_amended_all_imports (env : PyEnv) (text : String) (tree : StmtSeq)
    (hp : env.parse text = ParseResult.ok tree) :
    analyze_python_code env text = Report.success (analyze_tree env tree) Option.none ∧
    List.Sorted strLe (analyze_tree env tree).all_imports ∧
    (analyze_tree env tree).all_imports.Nodup ∧
    (∀ y, y ∈ (analyze_tree env tree).all_imports ↔ y ∈ docAllSeq tree) ∧
    ((analyze_tree env tree).all_imports = [] ↔ docAllSeq tree = []) := by
  refine ⟨by unfold analyze_python_code; rw [hp], ?_, ?_, ?_, ?_⟩
  · simpa [analyze_tree] using sortStrings_sorted (allModules tree)
  · simpa [analyze_tree] using sortStrings_nodup _ (allModules_nodup tree)
  · intro y
    simp only [analyze_tree]
    rw [mem_sortStrings, mem_allModules]
  · simp only [analyze_tree]
    constructor
    · intro he
      rw [List.eq_nil_iff_forall_not_mem] at he ⊢
      intro y hy
      exact he y ((mem_sortStrings y _).mpr ((mem_allModules tree y).mpr hy))
    · intro he
      rw [List.eq_nil_iff_forall_not_mem] at he ⊢
      intro y hy
      exact he y ((mem_allModules tree y).mp ((mem_sortStrings y _).mp hy))

/-- Witness for the amended C6 at the concrete valid input
`"import os\nimport numpy"`. -/
theorem C6_amended_all_imports_witness :
    envDemo.parse "import os\nimport numpy" = ParseResult.ok demoTree ∧
    (analyze_python_code envDemo "import os\nimport numpy" =
        Report.success (analyze_tree envDemo demoTree) Option.none ∧
      List.Sorted strLe (analyze_tree envDemo demoTree).all_imports ∧
      (analyze_tree envDemo demoTree).all_imports.Nodup ∧
      (∀ y, y ∈ (analyze_tree envDemo demoTree).all_imports ↔ y ∈ docAllSeq demoTree) ∧
      ((analyze_tree envDemo demoTree).all_imports = [] ↔ docAllSeq demoTree = [])) :=
  ⟨rfl, C6_amended_all_imports envDemo "import os\nimport numpy" demoTree rfl⟩

/-- C7 as frozen is false on the code: the extractor accumulates into
unordered sets, and the only ordered view the program produces is
lexicographically sorted, not in document order.  On the valid input
`"import b\nimport a"` the document-order sequence of raw imports is
`["b", "a"]` while the report lists `["a", "b"]`. -/
theorem C7_counterexample_document_order :
    envDemo.parse "import b\nimport a" = ParseResult.ok orderTree ∧
    (rawImportsOfSeq orderTree).map RawImport.module_path = ["b", "a"] ∧
    (analyze_tree envDemo orderTree).all_imports = ["a", "b"] ∧
    (analyze_tree envDemo orderTree).all_imports ≠
      (rawImportsOfSeq orderTree).map RawImport.module_path := by
  refine ⟨rfl, ?_, ?_, ?_⟩ <;> decide

/-- C7 amended: the extractor produces the set of `RawImport` values rather
than an ordered sequence: a string is in the collected `imports`
(respectively `from_imports`) set exactly when the document-order sequence of
`RawImport` values contains it as a direct (respectively from-form) import,
each set is duplicate-free, and occurrence order is not preserved. -/
theorem C7_amended_extractor_sets (tree : StmtSeq) (y : String) :
    (y ∈ (analyzerOf tree).imports ↔
      (⟨y, ImportForm.direct⟩ : RawImport) ∈ rawImportsOfSeq tree) ∧
    (y ∈ (analyzerOf tree).from_imports ↔
      (⟨y, ImportForm.fromModule⟩ : RawImport) ∈ rawImportsOfSeq tree) ∧
    (analyzerOf tree).imports.Nodup ∧ (analyzerOf tree).from_imports.Nodup := by
  refine ⟨?_, ?_, (analyzerOf_nodup tree).1, (analyzerOf_nodup tree).2⟩
  · rw [analyzerOf_imports_mem, rawImportsOfSeq_direct_mem]
  · rw [analyzerOf_from_imports_mem, rawImportsOfSeq_from_mem]

/-- C8 as frozen is false on the code: the missing-required-argument
invocation also exits with status 0 (Python `main` ends it with a plain
`return` after printing the ArgumentError report), so exit status never
distinguishes it from analysis-level failures, which likewise exit 0. -/
theorem C8_counterexample_exit_status :
    (main_py envDemo ["ast-analyzer.py"]).1 =
      [Report.failure "ArgumentError" Option.none Option.none] ∧
    (main_py envDemo ["ast-analyzer.py"]).2 = 0 ∧
    (main_py envDemo ["ast-analyzer.py", "missing.py"]).1 =
      [Report.failure "FileNotFoundError" Option.none Option.none] ∧
    (main_py envDemo ["ast-analyzer.py", "missing.py"]).2 = 0 := by
  refine ⟨?_, ?_, ?_, ?_⟩ <;> decide

/-- C8 amended: every invocation produces exactly one JSON object, and the
process exit status is 0 in every case — including the missing-argument case,
which is distinguished from other failures only by its `error_type` field. -/
theorem C8_amended_one_report_exit_zero (env : PyEnv) (argv : List String) :
    (main_py env argv).1.length = 1 ∧ (main_py env argv).2 = 0 := by
  simp only [main_py]
  split
  · exact ⟨rfl, rfl⟩
  · split
    · exact ⟨rfl, rfl⟩
    · split <;> exact ⟨rfl, rfl⟩

/-- C10: two syntactically valid input texts whose import statements yield the
same set of direct-import target paths and the same set of from-import source
modules produce identical reports — reordering import statements or repeating
an already-present import changes nothing. -/
theorem C10_report_determined_by_sets (env : PyEnv) (t1 t2 : String)
    (tr1 tr2 : StmtSeq)
    (h1 : env.parse t1 = ParseResult.ok tr1) (h2 : env.parse t2 = ParseResult.ok tr2)
    (hd : ∀ y, y ∈ docDirectSeq tr1 ↔ y ∈ docDirectSeq tr2)
    (hf : ∀ y, y ∈ docFromSeq tr1 ↔ y ∈ docFromSeq tr2) :
    analyze_python_code env t1 = analyze_python_code env t2 := by
  unfold analyze_python_code
  rw [h1, h2]
  dsimp only
  suffices h : analyze_tree env tr1 = analyze_tree env tr2 by rw [h]
  have hall : ∀ y, y ∈ allModules tr1 ↔ y ∈ allModules tr2 := by
    intro y
    rw [mem_allModules, mem_allModules]
    unfold docAllSeq
    rw [List.mem_append, List.mem_append, hd y, hf y]
  have hallsort : sortStrings (allModules tr1) = sortStrings (allModules tr2) :=
    sortStrings_eq_of_mem_iff _ _ (allModules_nodup tr1) (allModules_nodup tr2) hall
  have hlen : (allModules tr1).length = (allModules tr2).length :=
    ((List.perm_ext_iff_of_nodup (allModules_nodup tr1)
      (allModules_nodup tr2)).mpr hall).length_eq
  have htop : ∀ y, y ∈ topLevelPackages tr1 ↔ y ∈ topLevelPackages tr2 := by
    intro y
    rw [mem_topLevelPackages, mem_topLevelPackages, List.mem_map, List.mem_map]
    constructor
    · rintro ⟨a, ha, rfl⟩
      exact ⟨a, (hall a).mp ha, rfl⟩
    · rintro ⟨a, ha, rfl⟩
      exact ⟨a, (hall a).mpr ha, rfl⟩
  have htopsort : sortStrings (topLevelPackages tr1) = sortStrings (topLevelPackages tr2) :=
    sortStrings_eq_of_mem_iff _ _ (topLevelPackages_nodup tr1)
      (topLevelPackages_nodup tr2) htop
  unfold analyze_tree
  rw [hallsort, htopsort, hlen]

/-- Witness for C10: `"import os\nimport numpy"` versus
`"import numpy\nimport os\nimport os"` (reordered, one import repeated)
produce identical reports in the demo environment. -/
theorem C10_report_determined_by_sets_witness :
    envDemo.parse "import os\nimport numpy" = ParseResult.ok demoTree ∧
    envDemo.parse "import numpy\nimport os\nimport os" =
      ParseResult.ok demoTreeReordered ∧
    analyze_python_code envDemo "import os\nimport numpy" =
      analyze_python_code envDemo "import numpy\nimport os\nimport os" :=
  ⟨rfl, rfl,
    C10_report_determined_by_sets envDemo "import os\nimport numpy"
      "import numpy\nimport os\nimport os" demoTree demoTreeReordered rfl rfl
      (by
        intro y
        simp only [demoTree, demoTreeReordered, docDirectSeq, docDirect, List.mem_append,
          List.mem_singleton, List.not_mem_nil, or_false]
        tauto)
      (by
        intro y
        simp [demoTree, demoTreeReordered, docFromSeq, docFrom])⟩
